import Mathlib

/-!
Shallow embedding of the two concurrency-aware I/O primitives of `utils.go`:

* `bufReader` — an asynchronous buffered reader.  A background drain task
  repeatedly reads a chunk from the wrapped source; on success it appends the
  chunk to a shared buffer, on failure it records the error as the terminal
  condition and stops.  The consumer-facing `Read` loops: it first tries to
  take bytes from the front of the buffer (returning immediately when it gets
  any), otherwise returns the recorded terminal error, otherwise waits for the
  drain task's next signal and retries.

* `writeBroadcaster` — a fan-out writer over an ordered collection of sinks.
  `Write` attempts the full payload on every sink in order, collects the sinks
  whose write errored or reported a byte count different from the payload
  length, removes them after the pass, and always reports full success to its
  own caller.  `Close` closes every registered sink, ignoring their errors,
  and does not modify the collection.

Bytes are modelled as `Nat`, error values as `Nat` codes (wrapped in `Option`,
`none` meaning the nil error).  Concurrency is modelled by explicit
interleaving: a drain-loop iteration and a read attempt are atomic steps, and
traces interleave them arbitrarily.
-/

/-- State of a `bufReader`: the shared in-memory buffer (front = oldest bytes)
and the terminal error recorded by the drain task, `none` while the source is
still live.  Mirrors the `buf` and `err` fields of the Go struct. -/
structure bufReader where
  buf : List Nat
  err : Option Nat

/-- One iteration of the drain loop's state update (`bufReader.drain` body):
the source read returned the chunk `chunk` together with error `e`.  If `e` is
non-nil the error is recorded and the chunk is NOT appended (the Go code only
writes `buf[0:n]` into the buffer in the `else` branch); otherwise the chunk is
appended to the shared buffer. -/
def bufReader.drainStep (r : bufReader) (chunk : List Nat) (e : Option Nat) : bufReader :=
  match e with
  | some c => { r with err := some c }
  | none => { r with buf := r.buf ++ chunk }

/-- The drain loop (`bufReader.drain`): process successive source read results
until the first one carrying an error, which is recorded and breaks the
loop. -/
def bufReader.drainRun : bufReader → List (List Nat × Option Nat) → bufReader
  | r, [] => r
  | r, (c, e) :: rest =>
    match e with
    | some c0 => r.drainStep c (some c0)
    | none => bufReader.drainRun (r.drainStep c none) rest

/-- Result of one pass through the body of the `bufReader.Read` loop:
either the call returns `(n, bytes, err)` to the caller, or it reaches the
`wait` suspension point. -/
inductive ReadOutcome where
  | ret (n : Nat) (bytes : List Nat) (e : Option Nat)
  | wait

/-- One iteration of the `bufReader.Read` loop with a destination buffer of
length `k`.  `r.buf.Read p` takes `min k r.buf.length` bytes from the front of
the buffer; if that count is positive the call returns them with a nil error.
Otherwise, if a terminal error is recorded the call returns `(0, err)`;
otherwise the loop waits on the condition variable. -/
def bufReader.readAttempt (r : bufReader) (k : Nat) : ReadOutcome × bufReader :=
  let n := min k r.buf.length
  if 0 < n then
    (ReadOutcome.ret n (r.buf.take n) none, { r with buf := r.buf.drop n })
  else
    match r.err with
    | some c => (ReadOutcome.ret 0 [] (some c), r)
    | none => (ReadOutcome.wait, r)

/-- The full `bufReader.Read` loop.  Each time the loop reaches the `wait`
suspension point, the wake-up that releases it is a drain-loop iteration, so
the waiting call observes one more drain step before retrying; `ds` is the
list of remaining drain iterations.  `none` means the call is still blocked
after all of `ds` (no further signal ever arrives). -/
def bufReader.readLoop (k : Nat) : bufReader → List (List Nat × Option Nat) →
    Option ((Nat × List Nat × Option Nat) × bufReader)
  | r, [] =>
    match r.readAttempt k with
    | (ReadOutcome.ret n bs e, r2) => some ((n, bs, e), r2)
    | (ReadOutcome.wait, _) => none
  | r, (c, e) :: rest =>
    match r.readAttempt k with
    | (ReadOutcome.ret n bs e2, r2) => some ((n, bs, e2), r2)
    | (ReadOutcome.wait, r2) => bufReader.readLoop k (r2.drainStep c e) rest

/-- An atomic step of an interleaved execution: either one drain-loop
iteration (with the chunk and error its source read returned), or one
iteration of a consumer `Read` with a destination buffer of length `k`. -/
inductive Step where
  | drain (chunk : List Nat) (e : Option Nat)
  | read (k : Nat)

/-- The bytes a step feeds into the reader: the chunk of a successful drain
iteration; a failing drain iteration discards its chunk, and reads produce
nothing. -/
def stepBytes : Step → List Nat
  | Step.drain c none => c
  | Step.drain _ (some _) => []
  | Step.read _ => []

/-- All bytes the source successfully produced along a trace, in order. -/
def srcBytes : List Step → List Nat
  | [] => []
  | st :: rest => stepBytes st ++ srcBytes rest

/-- Apply one interleaving step to (reader state, bytes delivered to the
consumer so far).  A read step appends the bytes it returns to the delivery
log. -/
def applyStep (s : bufReader × List Nat) : Step → bufReader × List Nat
  | Step.drain c e => (s.1.drainStep c e, s.2)
  | Step.read k =>
    match s.1.readAttempt k with
    | (ReadOutcome.ret _ bs _, r2) => (r2, s.2 ++ bs)
    | (ReadOutcome.wait, r2) => (r2, s.2)

/-- Run an interleaved trace from a given (reader, delivered) state. -/
def runSteps (s : bufReader × List Nat) : List Step → bufReader × List Nat
  | [] => s
  | st :: rest => runSteps (applyStep s st) rest

/-- A freshly constructed reader (`newBufReader`): empty buffer, no error. -/
def bufReader.init : bufReader := ⟨[], none⟩

/-- A broadcast sink: an identity (list elements are distinguished by
identity in the Go code), its write behaviour — for a payload it reports a
byte count and an error — and the error its close reports.  The broadcaster
observes nothing else about a sink. -/
structure Sink where
  id : Nat
  writeFn : List Nat → Nat × Option Nat
  closeErr : Option Nat

/-- The eviction test of `writeBroadcaster.Write`: the sink's write returned
an error, or reported a byte count different from `len(p)`
(`err != nil || n != len(p)`). -/
def sinkFails (s : Sink) (p : List Nat) : Bool :=
  let res := s.writeFn p
  res.2.isSome || (res.1 != p.length)

/-- State of a `writeBroadcaster`: the ordered collection of registered
sinks. -/
structure writeBroadcaster where
  writers : List Sink

/-- `writeBroadcaster.AddWriter`: append the sink at the back. -/
def writeBroadcaster.AddWriter (w : writeBroadcaster) (s : Sink) : writeBroadcaster :=
  ⟨w.writers ++ [s]⟩

/-- Remove the first sink with the given identity, if any
(`writeBroadcaster.RemoveWriter`). -/
def removeFirstWriter : List Sink → Nat → List Sink
  | [], _ => []
  | s :: rest, t => if s.id = t then rest else s :: removeFirstWriter rest t

/-- `writeBroadcaster.RemoveWriter` as a state transformer. -/
def writeBroadcaster.RemoveWriter (w : writeBroadcaster) (t : Nat) : writeBroadcaster :=
  ⟨removeFirstWriter w.writers t⟩

/-- The single pass of `writeBroadcaster.Write` over the sink collection:
every sink's write is invoked with the full payload (first component: the
delivery log, one `(sink id, payload)` entry per registered sink in order);
the second component is the collection after the failed sinks collected
during the pass have been removed. -/
def writePass (p : List Nat) : List Sink → List (Nat × List Nat) × List Sink
  | [] => ([], [])
  | s :: rest =>
    ((s.id, p) :: (writePass p rest).1,
      if sinkFails s p then (writePass p rest).2 else s :: (writePass p rest).2)

/-- `writeBroadcaster.Write`: run the pass, keep the surviving sinks, and
report `(len(p), nil)` to the caller unconditionally.  Result: (new state,
delivery log, value returned to the caller). -/
def writeBroadcaster.Write (w : writeBroadcaster) (p : List Nat) :
    writeBroadcaster × List (Nat × List Nat) × (Nat × Option Nat) :=
  (⟨(writePass p w.writers).2⟩, (writePass p w.writers).1, (p.length, none))

/-- The pass of `writeBroadcaster.Close` over the collection: every sink's
close is invoked, in order; the log records each sink's identity and the
error its close returned (which the Go code discards). -/
def closePass : List Sink → List (Nat × Option Nat)
  | [] => []
  | s :: rest => (s.id, s.closeErr) :: closePass rest

/-- `writeBroadcaster.Close`: close every registered sink and return nil.
The collection is not modified (the Go body only iterates it).  Result:
(state afterwards, close log, value returned to the caller). -/
def writeBroadcaster.Close (w : writeBroadcaster) :
    writeBroadcaster × List (Nat × Option Nat) × Option Nat :=
  (w, closePass w.writers, none)

/-- A sink whose write reports one more byte than the payload length, with a
nil error. -/
def overReportingSink : Sink := ⟨0, fun q => (q.length + 1, none), none⟩

/-! ### Helper lemmas -/

theorem applyStep_bytes (s : bufReader × List Nat) (st : Step) :
    (applyStep s st).2 ++ (applyStep s st).1.buf = s.2 ++ s.1.buf ++ stepBytes st := by
  rcases s with ⟨r, out⟩
  cases st with
  | drain c e =>
    cases e <;> simp [applyStep, stepBytes, bufReader.drainStep, List.append_assoc]
  | read k =>
    show (applyStep (r, out) (Step.read k)).2 ++ (applyStep (r, out) (Step.read k)).1.buf
      = out ++ r.buf ++ []
    by_cases h : 0 < min k r.buf.length
    · simp only [applyStep, bufReader.readAttempt, if_pos h]
      simp [List.append_assoc]
    · simp only [applyStep, bufReader.readAttempt, if_neg h]
      cases herr : r.err <;> simp

theorem runSteps_bytes (steps : List Step) : ∀ s : bufReader × List Nat,
    (runSteps s steps).2 ++ (runSteps s steps).1.buf = s.2 ++ s.1.buf ++ srcBytes steps := by
  induction steps with
  | nil => intro s; simp [runSteps, srcBytes]
  | cons st rest ih =>
    intro s
    show (runSteps (applyStep s st) rest).2 ++ (runSteps (applyStep s st) rest).1.buf
      = s.2 ++ s.1.buf ++ (stepBytes st ++ srcBytes rest)
    rw [ih (applyStep s st), applyStep_bytes]
    simp [List.append_assoc]

theorem readAttempt_zero (r : bufReader) :
    r.readAttempt 0 =
      match r.err with
      | some c => (ReadOutcome.ret 0 [] (some c), r)
      | none => (ReadOutcome.wait, r) := by
  simp [bufReader.readAttempt]

/-! ### Claims -/

/-- Claim C1: for every interleaved trace of drain-loop iterations and
consumer reads starting from a fresh reader, the bytes delivered to the
consumer, followed by the bytes still buffered, are exactly the concatenation
in order of the bytes the source produced — for any chunk split used by the
drain task and any split of the consumer's reads; in particular once the
buffer has been fully consumed the delivered bytes are exactly the source's
concatenation. -/
theorem buffering_correctness (steps : List Step) :
    (runSteps (bufReader.init, []) steps).2 ++ (runSteps (bufReader.init, []) steps).1.buf
      = srcBytes steps ∧
    ((runSteps (bufReader.init, []) steps).1.buf = [] →
      (runSteps (bufReader.init, []) steps).2 = srcBytes steps) := by
  have h : (runSteps (bufReader.init, []) steps).2
      ++ (runSteps (bufReader.init, []) steps).1.buf = srcBytes steps := by
    simpa using runSteps_bytes steps (bufReader.init, [])
  refine ⟨h, fun he => ?_⟩
  rw [← h, he, List.append_nil]

/-- Witness for C1 at a concrete trace: the source produces `[1, 2]` in one
chunk and the consumer reads it all. -/
theorem buffering_correctness_witness :
    (runSteps (bufReader.init, []) [Step.drain [1, 2] none, Step.read 2]).2
      = srcBytes [Step.drain [1, 2] none, Step.read 2] :=
  (buffering_correctness [Step.drain [1, 2] none, Step.read 2]).2 rfl

/-- Claim C2 counterexample: with byte 7 buffered and terminal error 3
recorded, a read with a zero-length destination buffer returns 0 bytes
together with the terminal error — not `bytesRead > 0` with no error — and the
buffered byte is still undelivered, so the terminal error is surfaced before
all buffered bytes are consumed. -/
theorem read_returns_buffered_cex :
    (bufReader.mk [7] (some 3)).buf ≠ [] ∧
    bufReader.readLoop 0 ⟨[7], some 3⟩ [] = some ((0, [], some 3), ⟨[7], some 3⟩) :=
  ⟨List.cons_ne_nil 7 [], rfl⟩

/-- Claim C2 (amended): for every reader state in which buffered data exists
and every caller buffer of positive length, `Read` copies as much as fits,
returning immediately (needing no drain signal) with a positive byte count
and no error, even if a terminal error is already recorded; the remaining
state keeps the undelivered bytes, so the terminal error is surfaced only
after all previously buffered bytes have been consumed. -/
theorem read_returns_buffered (r : bufReader) (k : Nat) (hb : r.buf ≠ []) (hk : 0 < k) :
    0 < min k r.buf.length ∧
    ∀ ds, bufReader.readLoop k r ds =
      some ((min k r.buf.length, r.buf.take (min k r.buf.length), none),
        { r with buf := r.buf.drop (min k r.buf.length) }) := by
  have hn : 0 < min k r.buf.length := lt_min hk (List.length_pos.mpr hb)
  refine ⟨hn, fun ds => ?_⟩
  have ha : r.readAttempt k =
      (ReadOutcome.ret (min k r.buf.length) (r.buf.take (min k r.buf.length)) none,
        { r with buf := r.buf.drop (min k r.buf.length) }) := by
    simp [bufReader.readAttempt, hn]
  cases ds <;> simp [bufReader.readLoop, ha]

/-- Witness for C2 (amended): buffer `[7, 8]`, terminal error 3 recorded,
destination of length 1. -/
theorem read_returns_buffered_witness :
    0 < min 1 (bufReader.mk [7, 8] (some 3)).buf.length ∧
    ∀ ds, bufReader.readLoop 1 ⟨[7, 8], some 3⟩ ds =
      some ((min 1 ([7, 8] : List Nat).length, ([7, 8] : List Nat).take (min 1 ([7, 8] : List Nat).length), none),
        ⟨([7, 8] : List Nat).drop (min 1 ([7, 8] : List Nat).length), some 3⟩) :=
  read_returns_buffered ⟨[7, 8], some 3⟩ 1 (List.cons_ne_nil 7 [8]) Nat.one_pos

/-- Claim C6: once a terminal error is recorded and the buffer is empty,
every `Read` call returns `(0, err)` with the same cached error immediately
(for any destination length, and regardless of how many further drain signals
would be available — it never waits), leaving the state unchanged so repeated
calls keep returning the same terminal condition; and the drain loop performs
exactly one terminal transition: the iteration that records the error breaks
the loop, processing no further source results. -/
theorem terminal_state_idempotent (c k : Nat) (ds rest : List (List Nat × Option Nat))
    (r : bufReader) (ch : List Nat) :
    bufReader.readLoop k ⟨[], some c⟩ ds = some ((0, [], some c), ⟨[], some c⟩) ∧
    bufReader.drainRun r ((ch, some c) :: rest) = r.drainStep ch (some c) := by
  constructor
  · have ha : bufReader.readAttempt ⟨[], some c⟩ k =
        (ReadOutcome.ret 0 [] (some c), ⟨[], some c⟩) := by
      simp [bufReader.readAttempt]
    cases ds <;> simp [bufReader.readLoop, ha]
  · rfl

/-- Claim C8: when a source read returns a chunk together with a non-nil
error, the drain task records the error and discards the chunk: the buffer is
unchanged, the error becomes the terminal condition, the chunk's bytes are
not part of the source bytes a trace accounts for, and along any continuation
of the trace the delivered bytes (plus buffer remainder) come only from the
other steps. -/
theorem drain_error_discards (r : bufReader) (chunk : List Nat) (c : Nat) (rest : List Step) :
    (r.drainStep chunk (some c)).buf = r.buf ∧
    (r.drainStep chunk (some c)).err = some c ∧
    srcBytes (Step.drain chunk (some c) :: rest) = srcBytes rest ∧
    (runSteps (bufReader.init, []) (Step.drain chunk (some c) :: rest)).2
      ++ (runSteps (bufReader.init, []) (Step.drain chunk (some c) :: rest)).1.buf
      = srcBytes rest := by
  refine ⟨rfl, rfl, by simp [srcBytes, stepBytes], ?_⟩
  have h := runSteps_bytes (Step.drain chunk (some c) :: rest) (bufReader.init, [])
  simpa [srcBytes, stepBytes, bufReader.init] using h

theorem readLoop_zero_some (r : bufReader) (c : Nat) (hc : r.err = some c)
    (ds : List (List Nat × Option Nat)) :
    bufReader.readLoop 0 r ds = some ((0, [], some c), r) := by
  have ha : r.readAttempt 0 = (ReadOutcome.ret 0 [] (some c), r) := by
    rw [readAttempt_zero, hc]
  cases ds <;> simp [bufReader.readLoop, ha]

theorem readLoop_zero_result (ds : List (List Nat × Option Nat)) : ∀ (r : bufReader)
    (res : (Nat × List Nat × Option Nat) × bufReader),
    bufReader.readLoop 0 r ds = some res →
    res.1.1 = 0 ∧ res.1.2.1 = [] ∧ res.1.2.2.isSome = true := by
  induction ds with
  | nil =>
    intro r res h
    rcases hc : r.err with _ | c <;>
      simp [bufReader.readLoop, readAttempt_zero, hc] at h
    rw [← h]
    simp
  | cons d rest ih =>
    intro r res h
    rcases d with ⟨c0, e0⟩
    rcases hc : r.err with _ | c
    · simp [bufReader.readLoop, readAttempt_zero, hc] at h
      exact ih (r.drainStep c0 e0) res h
    · simp [bufReader.readLoop, readAttempt_zero, hc] at h
      rw [← h]
      simp

theorem readLoop_zero_blocks (ds : List (List Nat × Option Nat)) : ∀ r : bufReader,
    r.err = none → (∀ d ∈ ds, d.2 = (none : Option Nat)) →
    bufReader.readLoop 0 r ds = none := by
  induction ds with
  | nil =>
    intro r hr _
    simp [bufReader.readLoop, readAttempt_zero, hr]
  | cons d rest ih =>
    intro r hr hds
    have hd : d.2 = (none : Option Nat) := hds d (List.mem_cons_self d rest)
    rcases d with ⟨c0, e0⟩
    simp only at hd
    subst hd
    simp [bufReader.readLoop, readAttempt_zero, hr]
    exact ih (r.drainStep c0 none) (by simp [bufReader.drainStep, hr])
      (fun d2 h2 => hds d2 (List.mem_cons_of_mem _ h2))

/-- Claim C10: a `Read` with a zero-length destination never returns buffered
data: if a terminal error is recorded it returns `(0, err)` immediately even
when undrained bytes remain (state unchanged); any result such a call ever
returns carries 0 bytes and a terminal error; and when no terminal error is
recorded it stays blocked across any number of error-free drain signals, even
when buffered data is available. -/
theorem zero_length_read (r : bufReader) (ds : List (List Nat × Option Nat)) :
    (∀ c, r.err = some c → bufReader.readLoop 0 r ds = some ((0, [], some c), r)) ∧
    (∀ res, bufReader.readLoop 0 r ds = some res →
      res.1.1 = 0 ∧ res.1.2.1 = [] ∧ res.1.2.2.isSome = true) ∧
    (r.err = none → (∀ d ∈ ds, d.2 = (none : Option Nat)) →
      bufReader.readLoop 0 r ds = none) :=
  ⟨fun c hc => readLoop_zero_some r c hc ds,
   fun res h => readLoop_zero_result ds r res h,
   fun hr hds => readLoop_zero_blocks ds r hr hds⟩

/-- Witness for C10: with byte 7 buffered and error 3 recorded, a zero-length
read returns the error and no data; with no error recorded it stays blocked
across an error-free drain signal even though byte 7 is buffered. -/
theorem zero_length_read_witness :
    bufReader.readLoop 0 ⟨[7], some 3⟩ [] = some ((0, [], some 3), ⟨[7], some 3⟩) ∧
    bufReader.readLoop 0 ⟨[7], none⟩ [([9], none)] = none :=
  ⟨(zero_length_read ⟨[7], some 3⟩ []).1 3 rfl,
   (zero_length_read ⟨[7], none⟩ [([9], none)]).2.2 rfl (by decide)⟩

theorem writePass_log (p : List Nat) (ws : List Sink) :
    (writePass p ws).1 = ws.map (fun s => (s.id, p)) := by
  induction ws with
  | nil => rfl
  | cons s rest ih => simp [writePass, ih]

theorem writePass_keep (p : List Nat) (ws : List Sink) :
    (writePass p ws).2 = ws.filter (fun s => !sinkFails s p) := by
  induction ws with
  | nil => rfl
  | cons s rest ih =>
    by_cases h : sinkFails s p
    · simp [writePass, ih, List.filter, h]
    · simp [writePass, ih, List.filter, h]

theorem sinkFails_eq_false (s : Sink) (p : List Nat) :
    sinkFails s p = false ↔ (s.writeFn p).2 = none ∧ (s.writeFn p).1 = p.length := by
  cases ho : (s.writeFn p).2 <;> simp [sinkFails, ho]

theorem closePass_eq_map (ws : List Sink) :
    closePass ws = ws.map (fun s => (s.id, s.closeErr)) := by
  induction ws with
  | nil => rfl
  | cons s rest ih => simp [closePass, ih]

/-- Claim C3: `writeBroadcaster.Write` reports `(len(p), nil)` to its own
caller for every payload and every sink collection, no matter how many sinks
fail. -/
theorem write_always_succeeds (w : writeBroadcaster) (p : List Nat) :
    (w.Write p).2.2 = (p.length, none) := rfl

/-- Claim C4 counterexample: a sink whose write reports `len(p) + 1` bytes
with a nil error neither errors nor writes fewer bytes than `len(p)`, yet
`Write` evicts it (the code tests `n != len(p)`, not `n < len(p)`). -/
theorem eviction_condition_cex :
    (overReportingSink.writeFn [1]).2 = none ∧
    ¬ (overReportingSink.writeFn [1]).1 < ([1] : List Nat).length ∧
    (writeBroadcaster.Write ⟨[overReportingSink]⟩ [1]).1.writers = [] :=
  ⟨rfl, by decide, rfl⟩

/-- Claim C4 (amended): after a `Write`, a sink remains in the active set
exactly when it was active before and its write returned a nil error AND
reported exactly `len(p)` bytes; equivalently a sink is evicted exactly when
its write errored or reported a byte count different from `len(p)`. -/
theorem eviction_condition (ws : List Sink) (p : List Nat) (s : Sink) :
    s ∈ (writeBroadcaster.Write ⟨ws⟩ p).1.writers ↔
      s ∈ ws ∧ (s.writeFn p).2 = none ∧ (s.writeFn p).1 = p.length := by
  show s ∈ (writePass p ws).2 ↔ _
  rw [writePass_keep, List.mem_filter]
  simp [sinkFails_eq_false]

/-- Witness for C4 (amended): a healthy sink stays active. -/
theorem eviction_condition_witness :
    Sink.mk 0 (fun q => (q.length, none)) none
        ∈ (writeBroadcaster.Write ⟨[Sink.mk 0 (fun q => (q.length, none)) none]⟩ [5]).1.writers ↔
      Sink.mk 0 (fun q => (q.length, none)) none ∈ [Sink.mk 0 (fun q => (q.length, none)) none] ∧
      ((Sink.mk 0 (fun q => (q.length, none)) none).writeFn [5]).2 = none ∧
      ((Sink.mk 0 (fun q => (q.length, none)) none).writeFn [5]).1 = ([5] : List Nat).length :=
  eviction_condition [Sink.mk 0 (fun q => (q.length, none)) none] [5]
    (Sink.mk 0 (fun q => (q.length, none)) none)

/-- Claim C5: with sinks A (failing on `p`) and B (healthy on `p`), a `Write`
of `p` delivers `p` to B (and attempts A) during the pass, the active set
afterwards is exactly `[B]`, and a subsequent `Write` of `p2` delivers only to
B — never to the evicted A. -/
theorem eviction_isolation (A B : Sink) (p p2 : List Nat)
    (hA : sinkFails A p = true) (hB : sinkFails B p = false) :
    (writeBroadcaster.Write ⟨[A, B]⟩ p).2.1 = [(A.id, p), (B.id, p)] ∧
    (writeBroadcaster.Write ⟨[A, B]⟩ p).1.writers = [B] ∧
    (writeBroadcaster.Write (writeBroadcaster.Write ⟨[A, B]⟩ p).1 p2).2.1 = [(B.id, p2)] := by
  refine ⟨by simp [writeBroadcaster.Write, writePass_log], ?_, ?_⟩
  · show (writePass p [A, B]).2 = [B]
    simp [writePass, hA, hB]
  · have hkeep : (writeBroadcaster.Write ⟨[A, B]⟩ p).1.writers = [B] := by
      show (writePass p [A, B]).2 = [B]
      simp [writePass, hA, hB]
    show (writePass p2 (writeBroadcaster.Write ⟨[A, B]⟩ p).1.writers).1 = [(B.id, p2)]
    rw [hkeep, writePass_log]
    rfl

/-- Witness for C5: sink 0 errors on every write, sink 1 accepts every
write in full. -/
theorem eviction_isolation_witness :
    (writeBroadcaster.Write ⟨[Sink.mk 0 (fun _ => (0, some 1)) none,
        Sink.mk 1 (fun q => (q.length, none)) none]⟩ [5]).2.1 = [(0, [5]), (1, [5])] ∧
    (writeBroadcaster.Write ⟨[Sink.mk 0 (fun _ => (0, some 1)) none,
        Sink.mk 1 (fun q => (q.length, none)) none]⟩ [5]).1.writers
      = [Sink.mk 1 (fun q => (q.length, none)) none] ∧
    (writeBroadcaster.Write (writeBroadcaster.Write ⟨[Sink.mk 0 (fun _ => (0, some 1)) none,
        Sink.mk 1 (fun q => (q.length, none)) none]⟩ [5]).1 [6]).2.1 = [(1, [6])] :=
  eviction_isolation (Sink.mk 0 (fun _ => (0, some 1)) none)
    (Sink.mk 1 (fun q => (q.length, none)) none) [5] [6] rfl rfl

/-- Claim C7: `writeBroadcaster.Close` invokes close exactly once on every
currently registered sink, in registration order (the close log is exactly
the registered sinks, each contributing its one close call), and returns nil
even when individual sink closes return errors. -/
theorem close_fans_out (w : writeBroadcaster) :
    (w.Close).2.1 = w.writers.map (fun s => (s.id, s.closeErr)) ∧
    (w.Close).2.2 = none :=
  ⟨closePass_eq_map w.writers, rfl⟩

/-- Claim C9: `writeBroadcaster.Close` leaves the sink collection unchanged —
no sink is evicted by close — so a subsequent `Write` still attempts to
deliver to every one of the closed sinks. -/
theorem close_frame (w : writeBroadcaster) (p : List Nat) :
    (w.Close).1 = w ∧
    (writeBroadcaster.Write (w.Close).1 p).2.1 = w.writers.map (fun s => (s.id, p)) :=
  ⟨rfl, writePass_log p w.writers⟩
